import Mathlib

/-
Verification of the Trend & Correlation Analysis Engine of
src/analysis.py (City of Toronto 2024 financial analysis), chart 8.
The numeric core is embedded shallowly: series are lists of rationals
(every float is a rational), the purely rational statistics (means,
sums of squared deviations, OLS slope and intercept, residual sum of
squares) are computable functions on ℚ, and the square-root based
quantities (Pearson r, the slope standard error returned by
scipy.stats.linregress, the forecast band half-width, CAGR) live in ℝ.
-/

namespace Toronto

/-- Arithmetic mean of a list of rationals (np.mean). -/
def mean (l : List ℚ) : ℚ := l.sum / l.length

/-- Sum of squared deviations from the mean: Sxx = Σ (v − v̄)². -/
def sxx (l : List ℚ) : ℚ := (l.map (fun v => (v - mean l) ^ 2)).sum

/-- Sum of cross deviations: Sxy = Σ (xᵢ − x̄)(yᵢ − ȳ). -/
def sxy (x y : List ℚ) : ℚ :=
  (List.zipWith (fun a b => (a - mean x) * (b - mean y)) x y).sum

/-- OLS slope, as computed by scipy.stats.linregress: Sxy / Sxx. -/
def slope (x y : List ℚ) : ℚ := sxy x y / sxx x

/-- OLS intercept, as computed by scipy.stats.linregress: ȳ − slope·x̄. -/
def intercept (x y : List ℚ) : ℚ := mean y - slope x y * mean x

/-- Residual sum of squares of the fitted line at the observed points:
SSres = Σ (yᵢ − (slope·xᵢ + intercept))². -/
def ssres (x y : List ℚ) : ℚ :=
  (List.zipWith (fun a b => (b - (slope x y * a + intercept x y)) ^ 2) x y).sum

/-- The slope and intercept part of a scipy.stats.linregress result. -/
structure FitQ where
  slope : ℚ
  intercept : ℚ
deriving DecidableEq

/-- scipy.stats.linregress, slope/intercept part.  scipy raises ValueError
("Cannot calculate a linear regression if all x values are identical")
exactly when the predictor has zero variance; this is modelled by `none`.
For a constant response it does NOT fail: slope = 0, intercept = ȳ. -/
def linregress (x y : List ℚ) : Option FitQ :=
  if sxx x = 0 then none else some ⟨slope x y, intercept x y⟩

/-- Pearson r as computed inside scipy.stats.linregress: when either series
has zero variance r is silently set to the sentinel 0.0, otherwise
r = Sxy/√(Sxx·Syy) clamped into [−1, 1]. -/
noncomputable def rVal (x y : List ℚ) : ℝ :=
  if sxx x = 0 ∨ sxx y = 0 then 0
  else max (-1) (min 1 ((sxy x y : ℝ) / Real.sqrt ((sxx x : ℝ) * (sxx y : ℝ))))

/-- The standard error returned by scipy.stats.linregress (its `stderr`
field): the standard error of the SLOPE, √((1 − r²)·Syy/Sxx/(n−2)),
with the special case stderr = 0 when n = 2. -/
noncomputable def stderrVal (x y : List ℚ) : ℝ :=
  if x.length = 2 then 0
  else Real.sqrt ((1 - rVal x y ^ 2) * (sxx y : ℝ) / (sxx x : ℝ) / ((x.length : ℝ) - 2))

/-- Modelled from the spec: the standard error of the estimate,
√(SSres/(n−2)), which the spec names as the `se` entering the
prediction-interval half-width.  (The code itself has no such quantity;
it uses scipy's slope standard error, `stderrVal`.) -/
noncomputable def seEst (x y : List ℚ) : ℝ :=
  Real.sqrt ((ssres x y : ℝ) / ((x.length : ℝ) - 2))

/-- Modelled from the spec: the closed-form Pearson correlation
coefficient Sxy/√(Sxx·Syy). -/
noncomputable def pearson (x y : List ℚ) : ℝ :=
  (sxy x y : ℝ) / Real.sqrt ((sxx x : ℝ) * (sxx y : ℝ))

/-- years_hist = np.array([2019, 2020, 2021, 2022, 2023, 2024]). -/
def years_hist : List ℚ := [2019, 2020, 2021, 2022, 2023, 2024]

/-- revenue_h = np.array([13200, 13000, 13800, 15100, 16325, 18202]). -/
def revenue_h : List ℚ := [13200, 13000, 13800, 15100, 16325, 18202]

/-- expenses_h = np.array([12800, 13100, 13500, 14200, 15075, 16186]). -/
def expenses_h : List ℚ := [12800, 13100, 13500, 14200, 15075, 16186]

/-- surplus_h = revenue_h - expenses_h (elementwise). -/
def surplus_h : List ℚ := List.zipWith (fun a b => a - b) revenue_h expenses_h

/-- net_debt_h = np.array([5500, 6200, 7000, 8000, 9602, 10005]). -/
def net_debt_h : List ℚ := [5500, 6200, 7000, 8000, 9602, 10005]

/-- years_proj = np.array([2025, 2026, 2027]). -/
def years_proj : List ℚ := [2025, 2026, 2027]

/-- slope_r from stats.linregress(years_hist, revenue_h). -/
def slope_r : ℚ := slope years_hist revenue_h

/-- intercept_r from stats.linregress(years_hist, revenue_h). -/
def intercept_r : ℚ := intercept years_hist revenue_h

/-- se_r from stats.linregress(years_hist, revenue_h). -/
noncomputable def se_r : ℝ := stderrVal years_hist revenue_h

/-- rev_proj = slope_r * years_proj + intercept_r, as a function of the year. -/
def rev_proj (p : ℚ) : ℚ := slope_r * p + intercept_r

/-- slope_e from stats.linregress(years_hist, expenses_h). -/
def slope_e : ℚ := slope years_hist expenses_h

/-- intercept_e from stats.linregress(years_hist, expenses_h). -/
def intercept_e : ℚ := intercept years_hist expenses_h

/-- se_e from stats.linregress(years_hist, expenses_h). -/
noncomputable def se_e : ℝ := stderrVal years_hist expenses_h

/-- exp_proj = slope_e * years_proj + intercept_e, as a function of the year. -/
def exp_proj (p : ℚ) : ℚ := slope_e * p + intercept_e

/-- slope_nd from stats.linregress(years_hist, net_debt_h). -/
def slope_nd : ℚ := slope years_hist net_debt_h

/-- intercept_nd from stats.linregress(years_hist, net_debt_h). -/
def intercept_nd : ℚ := intercept years_hist net_debt_h

/-- se_nd from stats.linregress(years_hist, net_debt_h). -/
noncomputable def se_nd : ℝ := stderrVal years_hist net_debt_h

/-- nd_proj = slope_nd * years_proj + intercept_nd, as a function of the year. -/
def nd_proj (p : ℚ) : ℚ := slope_nd * p + intercept_nd

/-- r_re from stats.linregress(revenue_h, expenses_h): the Pearson
correlation of expenses against revenue VALUES (not against time). -/
noncomputable def r_re : ℝ := rVal revenue_h expenses_h

/-- The general shape of the forecast band half-width computed at line 801:
1.96 · se · √(1 + 1/n + (p − x̄)²/Sxx). -/
noncomputable def halfWidth (se xbar s : ℝ) (n : ℕ) (p : ℝ) : ℝ :=
  1.96 * se * Real.sqrt (1 + 1 / (n : ℝ) + (p - xbar) ^ 2 / s)

/-- ci = 1.96 * se_r * np.sqrt(1 + 1/len(years_hist)
+ (years_proj - years_hist.mean())**2 / ((years_hist - years_hist.mean())**2).sum()),
as a function of the requested year. -/
noncomputable def ci (p : ℚ) : ℝ :=
  halfWidth se_r ((mean years_hist : ℚ) : ℝ) ((sxx years_hist : ℚ) : ℝ)
    years_hist.length (p : ℝ)

/-- Lower edge of the revenue forecast band: rev_proj - ci. -/
noncomputable def rev_band_lower (p : ℚ) : ℝ := (rev_proj p : ℝ) - ci p

/-- Upper edge of the revenue forecast band: rev_proj + ci. -/
noncomputable def rev_band_upper (p : ℚ) : ℝ := (rev_proj p : ℝ) + ci p

/-- Lower edge of the expense band: exp_proj - 1.96*se_e. -/
noncomputable def exp_band_lower (p : ℚ) : ℝ := (exp_proj p : ℝ) - 1.96 * se_e

/-- Upper edge of the expense band: exp_proj + 1.96*se_e. -/
noncomputable def exp_band_upper (p : ℚ) : ℝ := (exp_proj p : ℝ) + 1.96 * se_e

/-- Lower edge of the net-debt band: nd_proj - 1.5*se_nd. -/
noncomputable def nd_band_lower (p : ℚ) : ℝ := (nd_proj p : ℝ) - 1.5 * se_nd

/-- Upper edge of the net-debt band: nd_proj + 1.5*se_nd. -/
noncomputable def nd_band_upper (p : ℚ) : ℝ := (nd_proj p : ℝ) + 1.5 * se_nd

/-- surplus_proj = rev_proj - exp_proj (line 820), as a function of the year. -/
def surplus_proj (p : ℚ) : ℚ := rev_proj p - exp_proj p

/-- Modelled from the spec: the projection obtained by fitting a single OLS
line directly to the surplus series and evaluating it at the year. -/
def surplus_fit_proj (p : ℚ) : ℚ :=
  slope years_hist surplus_h * p + intercept years_hist surplus_h

/-- The CAGR formula (v_n/v₀)^(1/n) − 1 of the spec's GrowthMetrics,
matching the expression (revenue_h[-1]/revenue_h[0])**(1/5)-1 of line 807. -/
noncomputable def cagrOf (v0 vn : ℝ) (n : ℕ) : ℝ :=
  (vn / v0) ^ ((1 : ℝ) / (n : ℝ)) - 1

/-- The CAGR computed in the title of chart 8a (line 807):
(revenue_h[-1]/revenue_h[0])**(1/5) - 1. -/
noncomputable def cagr : ℝ :=
  cagrOf ((revenue_h.headD 0 : ℚ) : ℝ) ((revenue_h.getLastD 0 : ℚ) : ℝ) 5

/-- A sum over zipWith of a pointwise-nonnegative function is nonnegative. -/
theorem sum_zipWith_nonneg (f : ℚ → ℚ → ℚ) (hf : ∀ a b, 0 ≤ f a b) :
    ∀ x y : List ℚ, 0 ≤ (List.zipWith f x y).sum := by
  intro x
  induction x with
  | nil => intro y; simp
  | cons a xs ih =>
    intro y
    cases y with
    | nil => simp
    | cons b ys =>
      simp only [List.zipWith_cons_cons, List.sum_cons]
      have h1 := ih ys
      have h2 := hf a b
      linarith

/-- Expansion of a sum of squared affine residuals into the three
sums of squares and cross products. -/
theorem sum_sq_sub_expand (s c d : ℚ) :
    ∀ x y : List ℚ, x.length = y.length →
      (List.zipWith (fun a b => (b - d - s * (a - c)) ^ 2) x y).sum
        = (y.map (fun b => (b - d) ^ 2)).sum
          - 2 * s * (List.zipWith (fun a b => (a - c) * (b - d)) x y).sum
          + s ^ 2 * (x.map (fun a => (a - c) ^ 2)).sum := by
  intro x
  induction x with
  | nil =>
    intro y hy
    cases y with
    | nil => simp
    | cons b ys => simp at hy
  | cons a xs ih =>
    intro y hy
    cases y with
    | nil => simp at hy
    | cons b ys =>
      simp only [List.zipWith_cons_cons, List.sum_cons, List.map_cons]
      rw [ih ys (by simpa using hy)]
      ring

/-- The residual sum of squares of the OLS line: SSres = Syy − Sxy²/Sxx. -/
theorem ssres_eq (x y : List ℚ) (hlen : x.length = y.length) (hx : sxx x ≠ 0) :
    ssres x y = sxx y - sxy x y ^ 2 / sxx x := by
  have hfg : (fun a b : ℚ => (b - (slope x y * a + intercept x y)) ^ 2)
      = fun a b : ℚ => (b - mean y - slope x y * (a - mean x)) ^ 2 := by
    funext a b
    rw [intercept]
    ring
  rw [ssres, hfg, sum_sq_sub_expand (slope x y) (mean x) (mean y) x y hlen]
  have h1 : (y.map (fun b => (b - mean y) ^ 2)).sum = sxx y := rfl
  have h2 : (List.zipWith (fun a b => (a - mean x) * (b - mean y)) x y).sum = sxy x y := rfl
  have h3 : (x.map (fun a => (a - mean x) ^ 2)).sum = sxx x := rfl
  rw [h1, h2, h3, slope]
  field_simp
  ring

/-- Sxx is a sum of squares, hence nonnegative. -/
theorem sxx_nonneg (l : List ℚ) : 0 ≤ sxx l := by
  rw [sxx]
  apply List.sum_nonneg
  intro a ha
  simp only [List.mem_map] at ha
  obtain ⟨v, hv, h⟩ := ha
  rw [← h]
  positivity

/-- SSres is a sum of squares, hence nonnegative. -/
theorem ssres_nonneg (x y : List ℚ) : 0 ≤ ssres x y :=
  sum_zipWith_nonneg _ (fun a b => sq_nonneg _) x y

/-- Cauchy–Schwarz for the deviation sums: Sxy² ≤ Sxx · Syy. -/
theorem sxy_sq_le (x y : List ℚ) (hlen : x.length = y.length) (hx : sxx x ≠ 0) :
    sxy x y ^ 2 ≤ sxx x * sxx y := by
  have h0 := ssres_nonneg x y
  rw [ssres_eq x y hlen hx] at h0
  have hpos : 0 < sxx x := lt_of_le_of_ne (sxx_nonneg x) (Ne.symm hx)
  rw [sub_nonneg, div_le_iff hpos] at h0
  rw [mul_comm]
  linarith

/-- In the nondegenerate case scipy's r is exactly the closed-form Pearson
coefficient: the clamp into [−1,1] never fires, by Cauchy–Schwarz. -/
theorem rVal_eq_pearson (x y : List ℚ) (hlen : x.length = y.length)
    (hx : sxx x ≠ 0) (hy : sxx y ≠ 0) : rVal x y = pearson x y := by
  have hxpos : 0 < sxx x := lt_of_le_of_ne (sxx_nonneg x) (Ne.symm hx)
  have hypos : 0 < sxx y := lt_of_le_of_ne (sxx_nonneg y) (Ne.symm hy)
  have hxR : (0 : ℝ) < (sxx x : ℝ) := by exact_mod_cast hxpos
  have hyR : (0 : ℝ) < (sxx y : ℝ) := by exact_mod_cast hypos
  have hP : (0 : ℝ) < (sxx x : ℝ) * (sxx y : ℝ) := mul_pos hxR hyR
  have hsq : ((sxy x y : ℝ)) ^ 2 ≤ (sxx x : ℝ) * (sxx y : ℝ) := by
    exact_mod_cast sxy_sq_le x y hlen hx
  have hsP : 0 < Real.sqrt ((sxx x : ℝ) * (sxx y : ℝ)) := Real.sqrt_pos.mpr hP
  have habs : |(sxy x y : ℝ)| ≤ Real.sqrt ((sxx x : ℝ) * (sxx y : ℝ)) := by
    rw [← Real.sqrt_sq_eq_abs]
    exact Real.sqrt_le_sqrt hsq
  have hraw : |(sxy x y : ℝ) / Real.sqrt ((sxx x : ℝ) * (sxx y : ℝ))| ≤ 1 := by
    rw [abs_div, abs_of_nonneg (Real.sqrt_nonneg _), div_le_one hsP]
    exact habs
  obtain ⟨hlo, hhi⟩ := abs_le.mp hraw
  rw [rVal, if_neg (by push_neg; exact ⟨hx, hy⟩), pearson, min_eq_right hhi,
    max_eq_right hlo]

/-- The square of scipy's r equals Sxy²/(Sxx·Syy) in the nondegenerate case. -/
theorem rVal_sq (x y : List ℚ) (hlen : x.length = y.length)
    (hx : sxx x ≠ 0) (hy : sxx y ≠ 0) :
    rVal x y ^ 2 = (sxy x y : ℝ) ^ 2 / ((sxx x : ℝ) * (sxx y : ℝ)) := by
  have hxR : (0 : ℝ) ≤ (sxx x : ℝ) := by exact_mod_cast sxx_nonneg x
  have hyR : (0 : ℝ) ≤ (sxx y : ℝ) := by exact_mod_cast sxx_nonneg y
  rw [rVal_eq_pearson x y hlen hx hy, pearson, div_pow,
    Real.sq_sqrt (mul_nonneg hxR hyR)]

/-- scipy's stderr is the slope standard error √(SSres/(Sxx·(n−2))). -/
theorem stderrVal_eq (x y : List ℚ) (hlen : x.length = y.length)
    (hx : sxx x ≠ 0) (hy : sxx y ≠ 0) (hn : x.length ≠ 2) :
    stderrVal x y
      = Real.sqrt ((ssres x y : ℝ) / ((sxx x : ℝ) * ((x.length : ℝ) - 2))) := by
  have hX : ((sxx x : ℚ) : ℝ) ≠ 0 := by exact_mod_cast hx
  have hY : ((sxx y : ℚ) : ℝ) ≠ 0 := by exact_mod_cast hy
  have hres : (ssres x y : ℝ) = (sxx y : ℝ) - (sxy x y : ℝ) ^ 2 / (sxx x : ℝ) := by
    exact_mod_cast ssres_eq x y hlen hx
  have hL : ((x.length : ℕ) : ℝ) ≠ 2 := by exact_mod_cast hn
  have hd : ((x.length : ℝ) - 2) ≠ 0 := sub_ne_zero.mpr hL
  rw [stderrVal, if_neg hn, rVal_sq x y hlen hx hy]
  congr 1
  rw [hres]
  field_simp
  ring

/-- The mean historical year is 2021.5. -/
theorem mean_years_eq : mean years_hist = 4043 / 2 := by
  simp [mean, years_hist]
  norm_num

/-- Sxx of the historical years is 17.5. -/
theorem sxx_years_eq : sxx years_hist = 35 / 2 := by
  simp [sxx, mean, years_hist]
  norm_num

/-- The historical years are not all identical. -/
theorem sxx_years_ne : sxx years_hist ≠ 0 := by
  rw [sxx_years_eq]
  norm_num

/-- The revenue series has positive variance. -/
theorem sxx_rev_pos : 0 < sxx revenue_h := by
  simp [sxx, mean, revenue_h]
  norm_num

/-- The expense series has positive variance. -/
theorem sxx_exp_pos : 0 < sxx expenses_h := by
  simp [sxx, mean, expenses_h]
  norm_num

/-- The net-debt series has positive variance. -/
theorem sxx_nd_pos : 0 < sxx net_debt_h := by
  simp [sxx, mean, net_debt_h]
  norm_num

/-- The revenue fit has strictly positive residual sum of squares. -/
theorem ssres_rev_pos : 0 < ssres years_hist revenue_h := by
  rw [ssres_eq years_hist revenue_h rfl sxx_years_ne]
  simp [sxx, sxy, mean, years_hist, revenue_h]
  norm_num

/-- The net-debt fit has strictly positive residual sum of squares. -/
theorem ssres_nd_pos : 0 < ssres years_hist net_debt_h := by
  rw [ssres_eq years_hist net_debt_h rfl sxx_years_ne]
  simp [sxx, sxy, mean, years_hist, net_debt_h]
  norm_num

/-- The revenue/expense cross-deviation sum is positive. -/
theorem sxy_re_pos : 0 < sxy revenue_h expenses_h := by
  simp [sxy, mean, revenue_h, expenses_h]
  norm_num

/-- Rational core of the r > 0.9 bound: 0.81·Sxx·Syy < Sxy². -/
theorem c6_key : (81 / 100 : ℚ) * (sxx revenue_h * sxx expenses_h)
    < sxy revenue_h expenses_h ^ 2 := by
  simp [sxx, sxy, mean, revenue_h, expenses_h]
  norm_num

/-- scipy's stderr is always nonnegative. -/
theorem stderrVal_nonneg (x y : List ℚ) : 0 ≤ stderrVal x y := by
  rw [stderrVal]
  split
  · exact le_refl 0
  · exact Real.sqrt_nonneg _

/-- The revenue slope standard error in closed form: √(SSres/70). -/
theorem se_r_eq : se_r = Real.sqrt ((ssres years_hist revenue_h : ℝ) / 70) := by
  rw [se_r, stderrVal_eq years_hist revenue_h rfl sxx_years_ne
    (ne_of_gt sxx_rev_pos) (by norm_num [years_hist])]
  rw [sxx_years_eq]
  norm_num [years_hist]

/-- The net-debt slope standard error in closed form: √(SSres/70). -/
theorem se_nd_eq : se_nd = Real.sqrt ((ssres years_hist net_debt_h : ℝ) / 70) := by
  rw [se_nd, stderrVal_eq years_hist net_debt_h rfl sxx_years_ne
    (ne_of_gt sxx_nd_pos) (by norm_num [years_hist])]
  rw [sxx_years_eq]
  norm_num [years_hist]

/-- The net-debt slope standard error is strictly positive. -/
theorem se_nd_pos : 0 < se_nd := by
  rw [se_nd_eq]
  apply Real.sqrt_pos.mpr
  have h : (0 : ℝ) < (ssres years_hist net_debt_h : ℝ) := by
    exact_mod_cast ssres_nd_pos
  linarith

/-- The revenue slope standard error is strictly positive. -/
theorem se_r_pos : 0 < se_r := by
  rw [se_r_eq]
  apply Real.sqrt_pos.mpr
  have h : (0 : ℝ) < (ssres years_hist revenue_h : ℝ) := by
    exact_mod_cast ssres_rev_pos
  linarith

/-- The revenue band half-width with the concrete n, x̄ and Sxx filled in. -/
theorem ci_formula (p : ℚ) :
    ci p = 1.96 * se_r
      * Real.sqrt (1 + 1 / (6 : ℝ) + ((p : ℝ) - 4043 / 2) ^ 2 / (35 / 2)) := by
  rw [ci, halfWidth, mean_years_eq, sxx_years_eq]
  norm_num [years_hist]

/-- Claim C4 (confirmed): holding a fit fixed (se > 0, Sxx > 0), the
forecast half-width 1.96·se·√(1 + 1/n + (p−x̄)²/Sxx) is strictly increasing
in the distance of the requested period from the mean historical period. -/
theorem C4_halfWidth_monotone (se xbar s : ℝ) (n : ℕ) (p1 p2 : ℝ)
    (hse : 0 < se) (hs : 0 < s) (h : |p1 - xbar| < |p2 - xbar|) :
    halfWidth se xbar s n p1 < halfWidth se xbar s n p2 := by
  rw [halfWidth, halfWidth]
  have hsq : (p1 - xbar) ^ 2 < (p2 - xbar) ^ 2 := by
    rw [← sq_abs (p1 - xbar), ← sq_abs (p2 - xbar)]
    exact pow_lt_pow_left h (abs_nonneg _) (by norm_num)
  have harg : 1 + 1 / (n : ℝ) + (p1 - xbar) ^ 2 / s
      < 1 + 1 / (n : ℝ) + (p2 - xbar) ^ 2 / s := by
    have hd : (p1 - xbar) ^ 2 / s < (p2 - xbar) ^ 2 / s := by
      gcongr
    linarith
  have hnn : (0 : ℝ) ≤ 1 + 1 / (n : ℝ) + (p1 - xbar) ^ 2 / s := by positivity
  have hsqrt := Real.sqrt_lt_sqrt hnn harg
  have hcoef : (0 : ℝ) < 1.96 * se := by linarith
  exact mul_lt_mul_of_pos_left hsqrt hcoef

/-- Claim C4 witness: the half-width at 2025 is smaller than at 2026 for a
concrete fixed fit (se = 1, x̄ = 2021.5, Sxx = 17.5, n = 6). -/
theorem C4_witness :
    (0 : ℝ) < 1 ∧ (0 : ℝ) < 35 / 2 ∧
    |(2025 : ℝ) - 2021.5| < |(2026 : ℝ) - 2021.5| ∧
    halfWidth 1 2021.5 (35 / 2) 6 2025 < halfWidth 1 2021.5 (35 / 2) 6 2026 := by
  have h : |(2025 : ℝ) - 2021.5| < |(2026 : ℝ) - 2021.5| := by
    rw [abs_of_pos (by norm_num), abs_of_pos (by norm_num)]
    norm_num
  exact ⟨by norm_num, by norm_num, h,
    C4_halfWidth_monotone 1 2021.5 (35 / 2) 6 2025 2026 (by norm_num) (by norm_num) h⟩

/-- Claim C10 (confirmed): for every requested period the revenue band is
symmetric about the point estimate, with half-width ci, and ci is never
below the pure noise term 1.96·se_r. -/
theorem C10_band_symmetric (p : ℚ) :
    rev_band_upper p - (rev_proj p : ℝ) = ci p ∧
    (rev_proj p : ℝ) - rev_band_lower p = ci p ∧
    1.96 * se_r ≤ ci p := by
  refine ⟨by rw [rev_band_upper]; ring, by rw [rev_band_lower]; ring, ?_⟩
  rw [ci_formula]
  have h1 : (1 : ℝ) ≤ Real.sqrt (1 + 1 / (6 : ℝ) + ((p : ℝ) - 4043 / 2) ^ 2 / (35 / 2)) := by
    rw [Real.le_sqrt (by norm_num) (by positivity)]
    have ht : (0 : ℝ) ≤ ((p : ℝ) - 4043 / 2) ^ 2 / (35 / 2) := by positivity
    norm_num
    linarith
  have h0 : (0 : ℝ) ≤ 1.96 * se_r := by
    have := se_r_pos
    linarith
  calc 1.96 * se_r = 1.96 * se_r * 1 := by ring
  _ ≤ 1.96 * se_r * Real.sqrt (1 + 1 / (6 : ℝ) + ((p : ℝ) - 4043 / 2) ^ 2 / (35 / 2)) :=
      mul_le_mul_of_nonneg_left h1 h0

/-- Claim C10 witness: the band symmetry and noise-floor bound at 2025. -/
theorem C10_witness :
    rev_band_upper 2025 - (rev_proj 2025 : ℝ) = ci 2025 ∧
    (rev_proj 2025 : ℝ) - rev_band_lower 2025 = ci 2025 ∧
    1.96 * se_r ≤ ci 2025 :=
  C10_band_symmetric 2025

/-- Claim C5 (confirmed): for every valid fit the square of scipy's r equals
1 − SSres/SStot, where SSres is reconstructed from the reported slope and
intercept at each observed x; in particular they agree within 1e-9. -/
theorem C5_r_squared (x y : List ℚ) (hlen : x.length = y.length)
    (hn : 2 ≤ x.length) (hx : sxx x ≠ 0) (hy : sxx y ≠ 0) :
    |rVal x y ^ 2 - (1 - (ssres x y : ℝ) / (sxx y : ℝ))| ≤ 1e-9 := by
  have hX : ((sxx x : ℚ) : ℝ) ≠ 0 := by exact_mod_cast hx
  have hY : ((sxx y : ℚ) : ℝ) ≠ 0 := by exact_mod_cast hy
  have hres : (ssres x y : ℝ) = (sxx y : ℝ) - (sxy x y : ℝ) ^ 2 / (sxx x : ℝ) := by
    exact_mod_cast ssres_eq x y hlen hx
  have heq : rVal x y ^ 2 = 1 - (ssres x y : ℝ) / (sxx y : ℝ) := by
    rw [rVal_sq x y hlen hx hy, hres]
    field_simp
    ring
  rw [heq, sub_self, abs_zero]
  norm_num

/-- Claim C5 witness: the identity instantiated on the revenue fit. -/
theorem C5_witness :
    years_hist.length = revenue_h.length ∧ 2 ≤ years_hist.length ∧
    sxx years_hist ≠ 0 ∧ sxx revenue_h ≠ 0 ∧
    |rVal years_hist revenue_h ^ 2
      - (1 - (ssres years_hist revenue_h : ℝ) / (sxx revenue_h : ℝ))| ≤ 1e-9 := by
  have h2 : sxx revenue_h ≠ 0 := ne_of_gt sxx_rev_pos
  exact ⟨rfl, by norm_num [years_hist], sxx_years_ne, h2,
    C5_r_squared years_hist revenue_h rfl (by norm_num [years_hist]) sxx_years_ne h2⟩

/-- The surplus slope equals the difference of the revenue and expense slopes. -/
theorem slope_surplus_eq : slope years_hist surplus_h = slope_r - slope_e := by
  simp [slope, slope_r, slope_e, sxy, sxx, mean, years_hist, revenue_h, expenses_h,
    surplus_h]
  norm_num

/-- The surplus intercept equals the difference of the two intercepts. -/
theorem intercept_surplus_eq :
    intercept years_hist surplus_h = intercept_r - intercept_e := by
  simp [intercept, intercept_r, intercept_e, slope, slope_r, slope_e, sxy, sxx, mean,
    years_hist, revenue_h, expenses_h, surplus_h]
  norm_num

/-- Claim C9 (confirmed): for each projected year the surplus forecast taken
as rev_proj − exp_proj coincides with the projection of a single OLS line
fitted directly to the surplus series. -/
theorem C9_surplus_refinement (p : ℚ) (hp : p ∈ years_proj) :
    surplus_proj p = surplus_fit_proj p := by
  rw [surplus_proj, surplus_fit_proj, rev_proj, exp_proj, slope_surplus_eq,
    intercept_surplus_eq]
  ring

/-- Claim C9 witness: the two surplus projections agree at 2025. -/
theorem C9_witness :
    (2025 : ℚ) ∈ years_proj ∧ surplus_proj 2025 = surplus_fit_proj 2025 := by
  have hp : (2025 : ℚ) ∈ years_proj := by simp [years_proj]
  exact ⟨hp, C9_surplus_refinement 2025 hp⟩

/-- Claim C8 counterexample: with v0 = 1 > 0 and elapsed span n = 2 > 0 but a
negative last value v_n = −1, the round trip v0·(1+cagr)^n = v_n fails: the
real power (−1)^(1/2) is 0, so the left side is 0, not −1. -/
theorem C8_counterexample :
    (0 : ℝ) < 1 ∧ (0 : ℕ) < 2 ∧
    (1 : ℝ) * (1 + cagrOf 1 (-1) 2) ^ (2 : ℕ) ≠ -1 := by
  refine ⟨by norm_num, by norm_num, ?_⟩
  have hval : cagrOf 1 (-1) 2 = -1 := by
    rw [cagrOf]
    have hneg : ((-1 : ℝ) / 1) = -1 := by norm_num
    rw [hneg, Real.rpow_def_of_neg (by norm_num : (-1 : ℝ) < 0)]
    rw [Real.log_neg_eq_log, Real.log_one]
    have hc : (1 : ℝ) / ((2 : ℕ) : ℝ) * Real.pi = Real.pi / 2 := by
      norm_num
      ring
    rw [hc, Real.cos_pi_div_two]
    norm_num
  rw [hval]
  norm_num

/-- Claim C8 (amended, confirmed): for v0 > 0, v_n > 0 and elapsed span
n > 0, the growth rate cagr = (v_n/v0)^(1/n) − 1 satisfies the exact round
trip v0·(1+cagr)^n = v_n. -/
theorem C8_roundtrip (v0 vn : ℝ) (n : ℕ) (h0 : 0 < v0) (hn : 0 < n)
    (hvn : 0 < vn) : v0 * (1 + cagrOf v0 vn n) ^ n = vn := by
  rw [cagrOf]
  have hq : (0 : ℝ) < vn / v0 := div_pos hvn h0
  have hb : (1 + ((vn / v0) ^ ((1 : ℝ) / (n : ℝ)) - 1)) = (vn / v0) ^ ((1 : ℝ) / (n : ℝ)) := by
    ring
  rw [hb, one_div, Real.rpow_inv_natCast_pow hq.le (Nat.pos_iff_ne_zero.mp hn)]
  field_simp

/-- Claim C8 witness: the code's instance, 13200·(1+cagr)⁵ recovers 18202. -/
theorem C8_witness :
    (0 : ℝ) < 13200 ∧ (0 : ℕ) < 5 ∧ (0 : ℝ) < 18202 ∧
    (13200 : ℝ) * (1 + cagrOf 13200 18202 5) ^ (5 : ℕ) = 18202 :=
  ⟨by norm_num, by norm_num, by norm_num,
    C8_roundtrip 13200 18202 5 (by norm_num) (by norm_num) (by norm_num)⟩

/-- The revenue OLS slope is strictly positive. -/
theorem slope_r_pos : 0 < slope_r := by
  simp [slope_r, slope, sxy, sxx, mean, years_hist, revenue_h]
  norm_num

/-- The chart-title CAGR in closed form: (18202/13200)^(1/5) − 1. -/
theorem cagr_eq : cagr = ((18202 : ℝ) / 13200) ^ ((1 : ℝ) / 5) - 1 := by
  have h0 : revenue_h.headD 0 = (13200 : ℚ) := rfl
  have h1 : revenue_h.getLastD 0 = (18202 : ℚ) := rfl
  rw [cagr, h0, h1, cagrOf]
  norm_num

/-- Lower bound on the CAGR: it exceeds 6.63%. -/
theorem cagr_lb : (0.0663 : ℝ) < cagr := by
  have h5 : ((1.0663 : ℝ)) ^ (5 : ℕ) < (18202 : ℝ) / 13200 := by norm_num
  have hstep := Real.rpow_lt_rpow (by positivity : (0 : ℝ) ≤ (1.0663 : ℝ) ^ (5 : ℕ))
    h5 (by norm_num : (0 : ℝ) < 1 / 5)
  rw [← Real.rpow_natCast (1.0663 : ℝ) 5,
    ← Real.rpow_mul (by norm_num : (0 : ℝ) ≤ 1.0663)] at hstep
  norm_num at hstep
  rw [cagr_eq]
  linarith

/-- Upper bound on the CAGR: it is below 6.65%. -/
theorem cagr_ub : cagr < (0.0665 : ℝ) := by
  have h5 : (18202 : ℝ) / 13200 < ((1.0665 : ℝ)) ^ (5 : ℕ) := by norm_num
  have hstep := Real.rpow_lt_rpow (by positivity : (0 : ℝ) ≤ (18202 : ℝ) / 13200)
    h5 (by norm_num : (0 : ℝ) < 1 / 5)
  rw [← Real.rpow_natCast (1.0665 : ℝ) 5,
    ← Real.rpow_mul (by norm_num : (0 : ℝ) ≤ 1.0665)] at hstep
  norm_num at hstep
  rw [cagr_eq]
  linarith

/-- Claim C7 counterexample: the CAGR of the revenue series is NOT ≈ 0.0657;
it differs from 0.0657 by more than 5·10⁻⁴. -/
theorem C7_counterexample : (5e-4 : ℝ) < |cagr - 0.0657| := by
  have h := cagr_lb
  rw [abs_of_pos (by linarith)]
  linarith

/-- Claim C7 (amended, confirmed): the revenue fit slope is strictly
positive, and the CAGR equals (18202/13200)^(1/5) − 1 ≈ 0.0664 (6.64%),
lying strictly between 0.0663 and 0.0665. -/
theorem C7_amended :
    0 < slope_r ∧ cagr = ((18202 : ℝ) / 13200) ^ ((1 : ℝ) / 5) - 1 ∧
    (0.0663 : ℝ) < cagr ∧ cagr < (0.0665 : ℝ) :=
  ⟨slope_r_pos, cagr_eq, cagr_lb, cagr_ub⟩

/-- Claim C6 (confirmed): the correlation of the revenue series with the
expense series (regression on the revenue VALUES, not on time) equals the
closed-form Pearson coefficient Sxy/√(Sxx·Syy), and exceeds 0.9. -/
theorem C6_correlation :
    r_re = pearson revenue_h expenses_h ∧ (0.9 : ℝ) < r_re := by
  have hx : sxx revenue_h ≠ 0 := ne_of_gt sxx_rev_pos
  have hy : sxx expenses_h ≠ 0 := ne_of_gt sxx_exp_pos
  have heq : r_re = pearson revenue_h expenses_h := by
    rw [r_re]
    exact rVal_eq_pearson revenue_h expenses_h rfl hx hy
  refine ⟨heq, ?_⟩
  rw [heq, pearson]
  have hX : (0 : ℝ) < (sxx revenue_h : ℝ) := by exact_mod_cast sxx_rev_pos
  have hY : (0 : ℝ) < (sxx expenses_h : ℝ) := by exact_mod_cast sxx_exp_pos
  have hP : (0 : ℝ) < (sxx revenue_h : ℝ) * (sxx expenses_h : ℝ) := mul_pos hX hY
  have hsP : 0 < Real.sqrt ((sxx revenue_h : ℝ) * (sxx expenses_h : ℝ)) :=
    Real.sqrt_pos.mpr hP
  have hQ : (0 : ℝ) < (sxy revenue_h expenses_h : ℝ) := by exact_mod_cast sxy_re_pos
  rw [lt_div_iff hsP]
  have hkey0 := Rat.cast_lt (K := ℝ).mpr c6_key
  push_cast at hkey0
  have hkey : ((81 : ℝ) / 100) * ((sxx revenue_h : ℝ) * (sxx expenses_h : ℝ))
      < (sxy revenue_h expenses_h : ℝ) ^ 2 := by
    convert hkey0 using 2
  have hsq : ((0.9 : ℝ) * Real.sqrt ((sxx revenue_h : ℝ) * (sxx expenses_h : ℝ))) ^ 2
      < (sxy revenue_h expenses_h : ℝ) ^ 2 := by
    rw [mul_pow, Real.sq_sqrt hP.le]
    have h09 : ((0.9 : ℝ)) ^ 2 = 81 / 100 := by norm_num
    rw [h09]
    exact hkey
  exact lt_of_pow_lt_pow_left 2 hQ.le hsq

/-- Claim C3 counterexample: on the all-identical series [100,100,100] the
code's regression does NOT fail: linregress returns slope 0 and intercept
100, and the undefined correlation is silently defaulted to the sentinel 0. -/
theorem C3_counterexample :
    linregress [2019, 2020, 2021] [100, 100, 100] = some ⟨0, 100⟩ ∧
    rVal [2019, 2020, 2021] [100, 100, 100] = 0 := by
  have hx : sxx [(2019 : ℚ), 2020, 2021] ≠ 0 := by
    simp [sxx, mean]
    norm_num
  have hyy : sxx [(100 : ℚ), 100, 100] = 0 := by
    simp [sxx, mean]
    norm_num
  constructor
  · rw [linregress, if_neg hx]
    simp [slope, intercept, sxy, sxx, mean]
    norm_num
  · rw [rVal, if_pos (Or.inr hyy)]

/-- A zipWith sum vanishes when the second list is constant and the
function kills that constant. -/
theorem sum_zipWith_const_zero (f : ℚ → ℚ → ℚ) (c : ℚ) (hf : ∀ a, f a c = 0) :
    ∀ (x : List ℚ) (n : ℕ), (List.zipWith f x (List.replicate n c)).sum = 0 := by
  intro x
  induction x with
  | nil => intro n; simp
  | cons a xs ih =>
    intro n
    cases n with
    | zero => simp
    | succ m =>
      simp only [List.replicate_succ, List.zipWith_cons_cons, List.sum_cons, hf a, ih m]
      norm_num

/-- The mean of a nonempty constant series is the constant. -/
theorem mean_replicate (n : ℕ) (c : ℚ) (hn : n ≠ 0) :
    mean (List.replicate n c) = c := by
  rw [mean, List.sum_replicate, List.length_replicate, nsmul_eq_mul]
  have hc : ((n : ℕ) : ℚ) ≠ 0 := Nat.cast_ne_zero.mpr hn
  field_simp

/-- A nonempty constant series has zero variance. -/
theorem sxx_replicate (n : ℕ) (c : ℚ) (hn : n ≠ 0) :
    sxx (List.replicate n c) = 0 := by
  simp [sxx, mean_replicate n c hn, List.map_replicate, List.sum_replicate]

/-- Claim C3 (amended, confirmed): for ANY series whose values are all
identical — any number of points, any non-degenerate periods — the fit
succeeds with slope 0 and intercept the common value, and the undefined
Pearson statistic is silently defaulted to 0 rather than surfacing a
typed failure. -/
theorem C3_amended (x : List ℚ) (c : ℚ) (hx : sxx x ≠ 0) :
    linregress x (List.replicate x.length c) = some ⟨0, c⟩ ∧
    rVal x (List.replicate x.length c) = 0 := by
  have hn : x.length ≠ 0 := by
    intro h0
    apply hx
    rw [List.length_eq_zero.mp h0]
    simp [sxx, mean]
  have hmean : mean (List.replicate x.length c) = c := mean_replicate x.length c hn
  have hyy : sxx (List.replicate x.length c) = 0 := sxx_replicate x.length c hn
  have hxy : sxy x (List.replicate x.length c) = 0 := by
    rw [sxy]
    simp only [hmean]
    exact sum_zipWith_const_zero (fun a b => (a - mean x) * (b - c)) c
      (fun a => by ring) x x.length
  constructor
  · rw [linregress, if_neg hx]
    simp [slope, intercept, hxy, hmean]
  · rw [rVal, if_pos (Or.inr hyy)]

/-- Claim C3 witness: the amended statement instantiated on a three-point
series with periods 2019–2021 and constant value 42. -/
theorem C3_witness :
    sxx [(2019 : ℚ), 2020, 2021] ≠ 0 ∧
    (linregress [(2019 : ℚ), 2020, 2021] (List.replicate 3 42) = some ⟨0, 42⟩ ∧
      rVal [(2019 : ℚ), 2020, 2021] (List.replicate 3 42) = 0) := by
  have hx : sxx [(2019 : ℚ), 2020, 2021] ≠ 0 := by
    simp [sxx, mean]
    norm_num
  exact ⟨hx, C3_amended [2019, 2020, 2021] 42 hx⟩

/-- Claim C1 counterexample: at requested period 2025 the code's band
half-width is NOT 1.96·(standard error of the estimate)·√(1+1/n+(p−x̄)²/Sxx):
the code multiplies scipy's slope standard error, which is smaller by the
factor √Sxx. -/
theorem C1_counterexample :
    ci 2025 ≠ 1.96 * seEst years_hist revenue_h
      * Real.sqrt (1 + 1 / (years_hist.length : ℝ)
          + (((2025 : ℚ) : ℝ) - ((mean years_hist : ℚ) : ℝ)) ^ 2
            / ((sxx years_hist : ℚ) : ℝ)) := by
  have hR : (0 : ℝ) < (ssres years_hist revenue_h : ℝ) := by
    exact_mod_cast ssres_rev_pos
  have hseEst : seEst years_hist revenue_h
      = Real.sqrt ((ssres years_hist revenue_h : ℝ) / 4) := by
    rw [seEst]
    norm_num [years_hist]
  rw [ci_formula, hseEst, mean_years_eq, sxx_years_eq]
  have harg : (1 : ℝ) + 1 / (6 : ℝ) + ((2025 : ℝ) - 4043 / 2) ^ 2 / (35 / 2) = 28 / 15 := by
    norm_num
  have harg2 : (1 : ℝ) + 1 / (years_hist.length : ℝ)
      + ((2025 : ℝ) - ((4043 / 2 : ℚ) : ℝ)) ^ 2 / ((35 / 2 : ℚ) : ℝ) = 28 / 15 := by
    push_cast
    norm_num [years_hist]
  have h2025 : (((2025 : ℚ)) : ℝ) = (2025 : ℝ) := by norm_num
  rw [h2025, harg, harg2]
  have hlt : Real.sqrt ((ssres years_hist revenue_h : ℝ) / 70)
      < Real.sqrt ((ssres years_hist revenue_h : ℝ) / 4) := by
    apply Real.sqrt_lt_sqrt (by positivity)
    linarith
  have hF : (0 : ℝ) < Real.sqrt (28 / 15) := Real.sqrt_pos.mpr (by norm_num)
  have hse := se_r_eq
  intro heq
  rw [hse] at heq
  have hne : 1.96 * Real.sqrt ((ssres years_hist revenue_h : ℝ) / 70) * Real.sqrt (28 / 15)
      < 1.96 * Real.sqrt ((ssres years_hist revenue_h : ℝ) / 4) * Real.sqrt (28 / 15) := by
    apply mul_lt_mul_of_pos_right _ hF
    have h196 : (0 : ℝ) < 1.96 := by norm_num
    exact mul_lt_mul_of_pos_left hlt h196
  linarith [heq, hne]

/-- Claim C1 (amended, confirmed): for every requested future period the
point estimate is slope·p + intercept and the band half-width is
1.96·se·√(1+1/n+(p−x̄)²/Sxx), where se is scipy's slope standard error
√(SSres/((n−2)·Sxx)), not the standard error of the estimate. -/
theorem C1_amended (p : ℚ) (hp : p ∈ years_proj) :
    (rev_proj p : ℝ) = (slope_r : ℝ) * (p : ℝ) + (intercept_r : ℝ) ∧
    ci p = 1.96 * Real.sqrt ((ssres years_hist revenue_h : ℝ)
        / (((years_hist.length : ℝ) - 2) * ((sxx years_hist : ℚ) : ℝ)))
      * Real.sqrt (1 + 1 / (6 : ℝ) + ((p : ℝ) - 4043 / 2) ^ 2 / (35 / 2)) := by
  constructor
  · push_cast [rev_proj]
    ring
  · rw [ci_formula, se_r_eq, sxx_years_eq]
    have hden : ((years_hist.length : ℝ) - 2) * ((35 / 2 : ℚ) : ℝ) = 70 := by
      push_cast
      norm_num [years_hist]
    rw [hden]

/-- Claim C1 witness: the amended statement instantiated at period 2025. -/
theorem C1_witness :
    (2025 : ℚ) ∈ years_proj ∧
    ((rev_proj 2025 : ℝ) = (slope_r : ℝ) * ((2025 : ℚ) : ℝ) + (intercept_r : ℝ) ∧
      ci 2025 = 1.96 * Real.sqrt ((ssres years_hist revenue_h : ℝ)
          / (((years_hist.length : ℝ) - 2) * ((sxx years_hist : ℚ) : ℝ)))
        * Real.sqrt (1 + 1 / (6 : ℝ) + (((2025 : ℚ) : ℝ) - 4043 / 2) ^ 2 / (35 / 2))) := by
  have hp : (2025 : ℚ) ∈ years_proj := by simp [years_proj]
  exact ⟨hp, C1_amended 2025 hp⟩

/-- Claim C2 counterexample: the net-debt band half-width is NOT 1.96 times
the standard error: line 852 multiplies se_nd by 1.5. -/
theorem C2_counterexample : nd_band_upper 2025 - (nd_proj 2025 : ℝ) ≠ 1.96 * se_nd := by
  have h : nd_band_upper 2025 - (nd_proj 2025 : ℝ) = 1.5 * se_nd := by
    rw [nd_band_upper]
    ring
  rw [h]
  intro heq
  have := se_nd_pos
  linarith

/-- Claim C2 (amended, confirmed): the revenue band uses 1.96·se_r (scaled by
the extrapolation factor) and the expense band uses exactly 1.96·se_e, but
the net-debt band uses 1.5·se_nd, a strictly narrower multiplier. -/
theorem C2_amended (p : ℚ) (hp : p ∈ years_proj) :
    rev_band_upper p - (rev_proj p : ℝ)
      = 1.96 * se_r * Real.sqrt (1 + 1 / ((years_hist.length : ℕ) : ℝ)
          + (((p : ℚ) : ℝ) - ((mean years_hist : ℚ) : ℝ)) ^ 2
            / ((sxx years_hist : ℚ) : ℝ)) ∧
    exp_band_upper p - (exp_proj p : ℝ) = 1.96 * se_e ∧
    (exp_proj p : ℝ) - exp_band_lower p = 1.96 * se_e ∧
    nd_band_upper p - (nd_proj p : ℝ) = 1.5 * se_nd ∧
    (nd_proj p : ℝ) - nd_band_lower p = 1.5 * se_nd ∧
    1.5 * se_nd < 1.96 * se_nd := by
  refine ⟨?_, by rw [exp_band_upper]; ring, by rw [exp_band_lower]; ring,
    by rw [nd_band_upper]; ring, by rw [nd_band_lower]; ring, ?_⟩
  · rw [rev_band_upper, ci, halfWidth]
    ring
  · have := se_nd_pos
    linarith

/-- Claim C2 witness: the amended statement instantiated at period 2025. -/
theorem C2_witness :
    (2025 : ℚ) ∈ years_proj ∧
    (nd_band_upper 2025 - (nd_proj 2025 : ℝ) = 1.5 * se_nd ∧
      1.5 * se_nd < 1.96 * se_nd) := by
  have hp : (2025 : ℚ) ∈ years_proj := by simp [years_proj]
  have h := C2_amended 2025 hp
  exact ⟨hp, h.2.2.2.1, h.2.2.2.2.2⟩

end Toronto
